import Mathlib

/-!
Shallow embedding of the SWGOH guild-statistics dashboard (`src/app.py`) and
verification of its specification's claims.

The app ingests dated JSON snapshots, pivots per-player stat records into a
player × stat-name table (pandas `pivot_table` + `fillna(0)`), derives
phase-range sum columns, classifies special-mission status per player, and
projects a per-snapshot history series.  Each definition below is translated
from the corresponding Python code; pandas semantics (NaN group keys dropped
by `pivot_table`, `mean()` of an empty column = NaN) are modelled explicitly,
with NaN represented by `none` in `Option ℚ`.
-/

namespace SWGOH

/-- A member entry from a snapshot's `member` array: `{playerId, playerName}`. -/
structure Member where
  playerId : String
  playerName : String
  deriving DecidableEq, Repr

/-- One entry of a stat group's `playerStat` array: `{memberId, score}`.
`score` is coerced with `astype(int)` in the app, so it is an integer here. -/
structure PlayerStatEntry where
  memberId : String
  score : Int
  deriving DecidableEq, Repr

/-- One element of a snapshot's `currentStat` array: a `mapStatId` with its
nested `playerStat` list. -/
structure StatGroup where
  mapStatId : String
  playerStat : List PlayerStatEntry
  deriving DecidableEq, Repr

/-- One snapshot document: the `member` and `currentStat` top-level keys
(the only ones the pivot/history pipeline reads). -/
structure Snapshot where
  member : List Member
  currentStat : List StatGroup
  deriving DecidableEq, Repr

/-- The stat-name mapping `MAP_STAT_NAMES`, a JSON object modelled as an
association list (keys unique, in insertion order). -/
abbrev NameMap := List (String × String)

/-- Loading of `MAP_STAT_NAMES` (app.py lines 22-26): `json.load` of the file
when present, `{}` on `FileNotFoundError`.  `none` models the missing file. -/
def loadStatNames : Option NameMap → NameMap
  | some m => m
  | none => []

/-- Resolution `MAP_STAT_NAMES.get(k, k)`: the mapped label when present, else the
identifier itself. -/
def resolve (m : NameMap) (k : String) : String :=
  (m.lookup k).getD k

/-- Python `id_to_name = {m['playerId']: m['playerName'] for m in members}` followed
by `.map(id_to_name)`: dict comprehension keeps the last binding of a
duplicated id, and an id absent from the dict maps to NaN (`none`). -/
def idToName (members : List Member) (memberId : String) : Option String :=
  (members.reverse.find? (fun m => m.playerId == memberId)).map (·.playerName)

/-- One row of the flattened stat DataFrame
`pd.json_normalize(stat_list, 'playerStat', ['mapStatId'])`. -/
structure FlatRec where
  memberId : String
  score : Int
  mapStatId : String
  deriving DecidableEq, Repr

/-- Flattening `json_normalize(stat_list, 'playerStat', ['mapStatId'])`: one flat record
per (stat group, playerStat entry). -/
def flatten (groups : List StatGroup) : List FlatRec :=
  groups.flatMap fun g => g.playerStat.map fun e => ⟨e.memberId, e.score, g.mapStatId⟩

/-- A flat record after the `Player` and `StatName` column assignments
(app.py lines 118-119 / 243-244); `player = none` is pandas NaN for a
memberId absent from `id_to_name`. -/
structure ResolvedRec where
  player : Option String
  statName : String
  score : Int
  deriving DecidableEq, Repr

/-- Column assignments `stat_df['Player'] = stat_df['memberId'].map(id_to_name)` and
`stat_df['StatName'] = stat_df['mapStatId'].map(lambda k: MAP_STAT_NAMES.get(k, k))`. -/
def resolveRecs (idn : String → Option String) (m : NameMap) (rs : List FlatRec) :
    List ResolvedRec :=
  rs.map fun r => ⟨idn r.memberId, resolve m r.mapStatId, r.score⟩

/-- The records surviving `pivot_table`'s groupby: rows whose `Player` group
key is NaN are dropped. -/
def keptRecs (idn : String → Option String) (m : NameMap) (groups : List StatGroup) :
    List ResolvedRec :=
  (resolveRecs idn m (flatten groups)).filter (fun r => r.player.isSome)

/-- A player × stat-name table.  `cell` is total: `fillna(0)` makes every
(row, column) combination a defined integer, and the app only reads cells
at labels in `rows`/`cols`. -/
structure StatTable where
  rows : List String
  cols : List String
  cell : String → String → Int

/-- Row index of the pivot: the distinct resolved player names. -/
def pivotRows (rs : List ResolvedRec) : List String :=
  (rs.filterMap (·.player)).dedup

/-- Column index of the pivot: the distinct stat names among surviving rows. -/
def pivotCols (rs : List ResolvedRec) : List String :=
  (rs.map (·.statName)).dedup

/-- Aggregation `aggfunc='sum'` with `fillna(0)`: the summed score of the matching
records, 0 when none match. -/
def pivotCell (rs : List ResolvedRec) (p s : String) : Int :=
  ((rs.filter (fun r => r.player == some p && r.statName == s)).map (·.score)).sum

/-- The pivot `stat_df.pivot_table(index='Player', columns='StatName', values='score',
aggfunc='sum').fillna(0).astype(int)` (app.py lines 121-126 and 245-249). -/
def buildPivot (idn : String → Option String) (m : NameMap) (groups : List StatGroup) :
    StatTable :=
  let rs := keptRecs idn m groups
  ⟨pivotRows rs, pivotCols rs, pivotCell rs⟩

/-- Python `attempt_names = [f"Mission Attempt Round {p}" for p in range(3, 7)]`. -/
def attempt_names : List String :=
  (List.range' 3 4).map (fun p => "Mission Attempt Round " ++ toString p)

/-- Python `wave_names = [f"Waves Completed Round {p}" for p in range(3, 7)]`. -/
def wave_names : List String :=
  (List.range' 3 4).map (fun p => "Waves Completed Round " ++ toString p)

/-- Row sum `df[[c for c in names if c in df.columns]].sum(axis=1)` at one row. -/
def sumPresent (t : StatTable) (names : List String) (p : String) : Int :=
  ((names.filter (fun c => t.cols.contains c)).map (t.cell p)).sum

/-- Column assignment `df[name] = values`: overwrites an existing column,
appends a new one. -/
def addColumn (t : StatTable) (name : String) (f : String → Int) : StatTable :=
  ⟨t.rows,
   if t.cols.contains name then t.cols else t.cols ++ [name],
   fun p s => if s == name then f p else t.cell p s⟩

/-- The two derived-column assignments (app.py lines 141-142 and 250-251):
the waves column is computed from the table as it stands after the attempts
column has been added. -/
def augment (t : StatTable) : StatTable :=
  let t1 := addColumn t "Total Attempts P3-P6" (sumPresent t attempt_names)
  addColumn t1 "Total Completed Waves P3-P6" (sumPresent t1 wave_names)

/-- The table both tabs work with: pivot then derived columns. -/
def pipelineTable (idn : String → Option String) (m : NameMap) (groups : List StatGroup) :
    StatTable :=
  augment (buildPivot idn m groups)

/-- The stat groups with the playerStat entries whose memberId does not resolve
removed (used to state that unresolved records are dropped silently). -/
def dropUnresolved (idn : String → Option String) (groups : List StatGroup) :
    List StatGroup :=
  groups.map fun g => ⟨g.mapStatId, g.playerStat.filter (fun e => (idn e.memberId).isSome)⟩

/-- Substring test `base in a` for Python strings: substring containment, on character
lists. -/
def containsSeg (base a : String) : Bool :=
  (a.toList.tails).any (fun t => base.toList.isPrefixOf t)

/-- Python `s.startswith(pre)`. -/
def pyStartsWith (s pre : String) : Bool :=
  pre.toList.isPrefixOf s.toList

/-- Python `s.replace(pat, rep)` for a non-empty `pat`, on character lists:
replace the leftmost occurrences, scanning left to right.  The fuel argument
(instantiated with the string length) makes the recursion structural; one
character of fuel is spent per step, which suffices because `pat` is
non-empty. -/
def replaceAux (pat rep : List Char) : Nat → List Char → List Char
  | 0, s => s
  | _ + 1, [] => []
  | fuel + 1, c :: rest =>
    if pat.isPrefixOf (c :: rest) then
      rep ++ replaceAux pat rep fuel ((c :: rest).drop pat.length)
    else c :: replaceAux pat rep fuel rest

/-- Python `s.replace(pat, rep)` (the app only calls it with the non-empty
pattern `'covert_complete_mission_'`). -/
def pyReplace (s pat rep : String) : String :=
  ⟨replaceAux pat.toList rep.toList s.toList.length s.toList⟩

/-- Python `completed_keys = [k for k in MAP_STAT_NAMES if k.startswith('covert_complete_mission')]`. -/
def completed_keys (m : NameMap) : List String :=
  (m.map Prod.fst).filter (fun k => pyStartsWith k "covert_complete_mission")

/-- Python `attempted_keys = [k for k in MAP_STAT_NAMES if k.startswith('covert_round_attempted_mission')]`. -/
def attempted_keys (m : NameMap) : List String :=
  (m.map Prod.fst).filter (fun k => pyStartsWith k "covert_round_attempted_mission")

/-- The completed count `comp = pivot_df.at[player, name] if name in pivot_df.columns else 0`
where `name = MAP_STAT_NAMES.get(key, key)` (app.py lines 171-172). -/
def compCount (m : NameMap) (t : StatTable) (player key : String) : Int :=
  let name := resolve m key
  if t.cols.contains name then t.cell player name else 0

/-- The attempted count `base = key.replace('covert_complete_mission_', '');
atts = [MAP_STAT_NAMES.get(a) for a in attempted_keys if base in a];
att_count = sum(pivot_df.at[player, a] for a in atts if a in pivot_df.columns)`
(app.py lines 173-175).  `MAP_STAT_NAMES.get(a)` has no default, but every
`a` is a key of the map, so the lookup always succeeds. -/
def attCount (m : NameMap) (t : StatTable) (player key : String) : Int :=
  let base := pyReplace key "covert_complete_mission_" ""
  let atts := ((attempted_keys m).filter (fun a => containsSeg base a)).filterMap
    (fun a => m.lookup a)
  ((atts.filter (fun a => t.cols.contains a)).map (t.cell player)).sum

/-- Classification `row[name] = 1 if comp > 0 else (-1 if att_count > 0 else 0)`
(app.py line 176). -/
def classifyCell (m : NameMap) (t : StatTable) (player key : String) : Int :=
  if compCount m t player key > 0 then 1
  else if attCount m t player key > 0 then -1
  else 0

/-- The special-mission status grid `status_dict` (app.py lines 167-177):
one row per player of the pivot, one entry per completion key. -/
def statusGrid (m : NameMap) (t : StatTable) : List (String × List (String × Int)) :=
  t.rows.map fun player =>
    (player, (completed_keys m).map fun key => (resolve m key, classifyCell m t player key))

/-- A calendar date parsed from a snapshot filename (`datetime` restricted to
the fields `%d%m%y` sets). -/
structure Date where
  year : Nat
  month : Nat
  day : Nat
  deriving DecidableEq, Repr

/-- Surrogate sort key agreeing with `datetime` order on valid dates. -/
def dateKey (d : Date) : Nat :=
  d.year * 10000 + d.month * 100 + d.day

/-- Two-digit year pivot of `%y`: two-digit years 00-68 are 2000-2068, 69-99 are 1969-1999. -/
def yearOfYY (yy : Nat) : Nat :=
  if yy ≤ 68 then 2000 + yy else 1900 + yy

/-- Gregorian leap-year rule, as `datetime` applies it. -/
def isLeap (y : Nat) : Bool :=
  y % 4 == 0 && (y % 100 != 0 || y % 400 == 0)

/-- Number of days of month `m` in year `y` (0 for an invalid month). -/
def daysInMonth (y m : Nat) : Nat :=
  if m == 2 then (if isLeap y then 29 else 28)
  else if m == 4 || m == 6 || m == 9 || m == 11 then 30
  else if 1 ≤ m && m ≤ 12 then 31
  else 0

/-- Parsing `datetime.strptime(s, '%d%m%y')` on a six-digit string: `some` date when
the day/month combination is possible, `none` when `strptime` raises
`ValueError`. -/
def strptimeDDMMYY (ds : List Nat) : Option Date :=
  match ds with
  | [d1, d2, m1, m2, y1, y2] =>
    let dd := d1 * 10 + d2
    let mm := m1 * 10 + m2
    let yy := y1 * 10 + y2
    let y := yearOfYY yy
    if 1 ≤ mm && mm ≤ 12 && 1 ≤ dd && dd ≤ daysInMonth y mm then
      some ⟨y, mm, dd⟩
    else none
  | _ => none

/-- Leftmost occurrence of `tb_data_` followed by six digits — the search of
the regular expression `tb_data_(\d{6})` — returning the six digit values. -/
def findTbDigits : List Char → Option (List Nat)
  | [] => none
  | c :: rest =>
    let here := c :: rest
    match "tb_data_".toList.isPrefixOf here, (here.drop 8).take 6 with
    | true, ds =>
      if ds.length == 6 && ds.all Char.isDigit then
        some (ds.map (fun ch => ch.toNat - 48))
      else findTbDigits rest
    | false, _ => findTbDigits rest

/-- Python `os.path.basename`: the part of the path after the last slash. -/
def basename (fp : String) : String :=
  ⟨(fp.toList.reverse.takeWhile (fun c => c != '/')).reverse⟩

/-- Outcome of `extract_date(fp)` (app.py lines 37-40): `noMatch` when the
regex does not match (the function returns `None`), `parseError` when
`strptime` raises `ValueError`, `ok d` otherwise. -/
inductive ExtractResult where
  | noMatch
  | parseError
  | ok (d : Date)
  deriving DecidableEq, Repr

/-- The app's `extract_date(fp)` (app.py lines 37-40). -/
def extract_date (fp : String) : ExtractResult :=
  match findTbDigits (basename fp).toList with
  | none => .noMatch
  | some ds =>
    match strptimeDDMMYY ds with
    | none => .parseError
    | some d => .ok d

/-- The filter `files = [f for f in files if extract_date(f)]` (app.py
line 45): files whose name does not match are dropped; a matching name with
an impossible date makes `extract_date` raise, aborting the whole call. -/
def filterValid : List String → Except Unit (List String)
  | [] => .ok []
  | f :: rest =>
    match extract_date f with
    | .parseError => .error ()
    | .noMatch => filterValid rest
    | .ok _ => (filterValid rest).map (f :: ·)

/-- The date of a file for which `extract_date` succeeded (sort key on the
surviving files; `0` is never reached on them). -/
def dateKeyOf (f : String) : Nat :=
  match extract_date f with
  | .ok d => dateKey d
  | _ => 0

/-- The date part of `extract_date`, as an `Option`. -/
def okDate (f : String) : Option Date :=
  match extract_date f with
  | .ok d => some d
  | _ => none

/-- Whether `extract_date` succeeds on a file (the files surviving the
filter on line 45 are exactly these, when no name makes `strptime` raise). -/
def isOkFile (f : String) : Bool :=
  match extract_date f with
  | .ok _ => true
  | _ => false

/-- The function `load_all_json` (app.py lines 42-52), restricted to the date list it
returns: filter out non-matching names (raising on impossible dates), sort
the files ascending by their extracted date, and collect the dates in that
order. -/
def load_all_json (files : List String) : Except Unit (List Date) :=
  (filterValid files).map fun valid =>
    (valid.mergeSort (fun a b => decide (dateKeyOf a ≤ dateKeyOf b))).filterMap okDate

/-- Column mean `piv[m].mean()`: the arithmetic mean of column `m` over the row index.
pandas yields NaN on an empty column, modelled as `none`. -/
def meanCol (t : StatTable) (m : String) : Option ℚ :=
  match t.rows with
  | [] => none
  | _ => some (((t.rows.map (fun p => ((t.cell p m : Int) : ℚ))).sum) / (t.rows.length : ℚ))

/-- Guild-average value `val = piv[m].mean() if m in piv.columns else 0` (app.py line 255). -/
def gaValue (t : StatTable) (m : String) : Option ℚ :=
  if t.cols.contains m then meanCol t m else some 0

/-- Player value `val = piv.at[pl, m] if pl in piv.index and m in piv.columns else 0`
(app.py line 257). -/
def playerValue (t : StatTable) (pl m : String) : Option ℚ :=
  if t.rows.contains pl && t.cols.contains m then some ((t.cell pl m : Int) : ℚ)
  else some 0

/-- The per-record value of the history loop (app.py lines 254-257). -/
def histValue (t : StatTable) (pl m : String) : Option ℚ :=
  if pl == "Guild Average" then gaValue t m else playerValue t pl m

/-- One appended record `{'Date': date, 'Player': pl, 'Metric': m, 'Value': val}`. -/
structure HistRec where
  date : Date
  player : String
  metric : String
  value : Option ℚ
  deriving DecidableEq, Repr

/-- The body of the history loop for one `(date, run)` pair (app.py lines
236-258): skip the snapshot when the flattened stat DataFrame is empty,
otherwise pivot with the member list of the *latest* snapshot (`id_to_name`
from app.py line 67), augment, and emit one record per requested player ×
metric. -/
def snapshotRecords (idn : String → Option String) (m : NameMap) (date : Date)
    (run : Snapshot) (histPlayers metrics : List String) : List HistRec :=
  match flatten run.currentStat with
  | [] => []
  | _ =>
    let piv := pipelineTable idn m run.currentStat
    histPlayers.flatMap fun pl => metrics.map fun mt => ⟨date, pl, mt, histValue piv pl mt⟩

/-- The `records` list accumulated by the history loop (app.py lines
235-258), before the final sort.  `id_to_name` is built once from `jsons[-1]`
(app.py lines 65-67) and used for every snapshot. -/
def historyRecordsRaw (m : NameMap) (dates : List Date) (jsons : List Snapshot)
    (histPlayers metrics : List String) : List HistRec :=
  ((dates.zip jsons).map
    (fun dr => snapshotRecords (idToName (((jsons.getLast?).getD ⟨[], []⟩).member))
      m dr.1 dr.2 histPlayers metrics)).flatten

/-- The full history projection of Tab 2 (app.py lines 235-259), including the
final stable `hist_df.sort_values('Date')`. -/
def historyRecords (m : NameMap) (dates : List Date) (jsons : List Snapshot)
    (histPlayers metrics : List String) : List HistRec :=
  (historyRecordsRaw m dates jsons histPlayers metrics).mergeSort
    (fun a b => decide (dateKey a.date ≤ dateKey b.date))

/-- Outcome of the "Save Changes" handler: the resulting on-disk contents and
which of `st.error` / `st.success` ran. -/
structure SaveOutcome where
  fileContents : String
  errorShown : Bool
  successShown : Bool
  deriving DecidableEq, Repr

/-- The "Save Changes" handler (app.py lines 293-304), abstracted over the
parse (`json.loads`, `none` = raises) and serialize (`json.dump`) functions
of the JSON library: only a successful parse opens the file for writing. -/
def saveChanges {J : Type} (parse : String → Option J) (dump : J → String)
    (edited diskContents : String) : SaveOutcome :=
  match parse edited with
  | some p => ⟨dump p, false, true⟩
  | none => ⟨diskContents, true, false⟩

/-! Section: Concrete inputs used by counterexamples and witnesses -/

/-- The spec's example snapshot: players A (two `pts` records) and B (no
records). -/
def exSnapAB : Snapshot :=
  ⟨[⟨"idA", "A"⟩, ⟨"idB", "B"⟩], [⟨"pts", [⟨"idA", 10⟩, ⟨"idA", 5⟩]⟩]⟩

/-- The spec's example name mapping. -/
def exMapPts : NameMap := [("pts", "Total Territory Points")]

/-- A snapshot whose `currentStat` is empty. -/
def exSnapEmpty : Snapshot := ⟨[], []⟩

/-- A snapshot with one stat record whose memberId resolves to no member. -/
def exSnapGhost : Snapshot := ⟨[], [⟨"s", [⟨"ghost", 5⟩]⟩]⟩

/-- First example date. -/
def exD1 : Date := ⟨2024, 1, 1⟩

/-- Second example date. -/
def exD2 : Date := ⟨2024, 2, 1⟩

/-- Earlier snapshot: member id `x` is named `Old` and scores 10 on `m`. -/
def exSnap1 : Snapshot := ⟨[⟨"x", "Old"⟩], [⟨"m", [⟨"x", 10⟩]⟩]⟩

/-- Later snapshot: the same member id `x` is now named `New`. -/
def exSnap2 : Snapshot := ⟨[⟨"x", "New"⟩], [⟨"m", [⟨"x", 7⟩]⟩]⟩

/-- Snapshot with two players scoring 10 and 5 on stat `m`. -/
def exSnapMean : Snapshot :=
  ⟨[⟨"a", "A"⟩, ⟨"b", "B"⟩], [⟨"m", [⟨"a", 10⟩, ⟨"b", 5⟩]⟩]⟩

/-- Mission-status example mapping: one completion key and one matching
attempt key. -/
def exM6 : NameMap :=
  [("covert_complete_mission_x", "Comp X"), ("covert_round_attempted_mission_x_1", "Att X")]

/-- Table where player P attempted mission x (3 attempts) without
completing it. -/
def exT6 : StatTable :=
  ⟨["P"], ["Comp X", "Att X"], fun _ s => if s == "Comp X" then 0 else 3⟩

/-- Table where player P completed mission x. -/
def exT6c : StatTable :=
  ⟨["P"], ["Comp X", "Att X"], fun _ s => if s == "Comp X" then 2 else 3⟩

/-- Table with one phase-attempt source column present. -/
def exT7 : StatTable :=
  ⟨["P"], ["Mission Attempt Round 3"], fun _ _ => 4⟩

/-- Table with no phase source column present. -/
def exT7e : StatTable := ⟨["P"], ["Other"], fun _ _ => 4⟩

/-! Section: Helper lemmas -/

lemma mem_pivotRows_iff (idn : String → Option String) (m : NameMap)
    (groups : List StatGroup) (p : String) :
    p ∈ (buildPivot idn m groups).rows ↔
      ∃ r ∈ keptRecs idn m groups, r.player = some p := by
  simp [buildPivot, pivotRows, List.mem_dedup, List.mem_filterMap]

lemma pivotCell_eq_zero (rs : List ResolvedRec) (p s : String)
    (h : ∀ r ∈ rs, ¬(r.player = some p ∧ r.statName = s)) :
    pivotCell rs p s = 0 := by
  have hnil : rs.filter (fun r => r.player == some p && r.statName == s) = [] := by
    simp only [List.filter_eq_nil_iff]
    intro r hr
    simpa using h r hr
  simp [pivotCell, hnil]

/-! Section: C8: name resolution -/

/-- C8: `resolve` returns the mapped label when the identifier is a key of
the mapping and the identifier itself otherwise; a missing mapping file
yields the empty mapping, so every identifier resolves to itself. -/
theorem C8_resolve_fallback (m : NameMap) (k v : String) :
    (resolve (loadStatNames none) k = k) ∧
    (m.lookup k = some v → resolve m k = v) ∧
    (m.lookup k = none → resolve m k = k) := by
  refine ⟨by simp [resolve, loadStatNames], fun h => by simp [resolve, h],
    fun h => by simp [resolve, h]⟩

/-- Witness for C8 at a concrete mapping. -/
theorem C8_resolve_fallback_witness :
    resolve exMapPts "pts" = "Total Territory Points" ∧ resolve exMapPts "zz" = "zz" :=
  ⟨(C8_resolve_fallback exMapPts "pts" "Total Territory Points").2.1 rfl,
   (C8_resolve_fallback exMapPts "zz" "zz").2.2 rfl⟩

/-! Section: C9: manual-edit save -/

/-- C9: when the edited text does not parse, the save handler reports an
error, shows no success, and leaves the on-disk contents exactly as they
were. -/
theorem C9_save_rejects_invalid {J : Type} (parse : String → Option J)
    (dump : J → String) (edited diskContents : String)
    (h : parse edited = none) :
    saveChanges parse dump edited diskContents
      = ⟨diskContents, true, false⟩ := by
  simp [saveChanges, h]

/-- Witness for C9 with a parser that rejects the edited text. -/
theorem C9_save_rejects_invalid_witness :
    saveChanges (J := Unit) (fun _ => none) (fun _ => "") "not json" "original"
      = ⟨"original", true, false⟩ :=
  C9_save_rejects_invalid (fun _ => none) (fun _ => "") "not json" "original" rfl

/-! Section: C6: mission-status classification -/

/-- C6: the classification of every (player, mission) cell lies in
{1, -1, 0}; it is 1 whenever the completed count is positive (regardless of
attempts), -1 when the completed count is not positive but the summed
attempted count is, and 0 otherwise. -/
theorem C6_classify_total (m : NameMap) (t : StatTable) (player key : String) :
    (classifyCell m t player key = 1 ∨ classifyCell m t player key = -1 ∨
      classifyCell m t player key = 0) ∧
    (compCount m t player key > 0 → classifyCell m t player key = 1) ∧
    (compCount m t player key ≤ 0 → attCount m t player key > 0 →
      classifyCell m t player key = -1) ∧
    (compCount m t player key ≤ 0 → attCount m t player key ≤ 0 →
      classifyCell m t player key = 0) := by
  unfold classifyCell
  split
  · exact ⟨Or.inl rfl, fun _ => rfl, fun h _ => by omega, fun h _ => by omega⟩
  · split
    · refine ⟨Or.inr (Or.inl rfl), fun h => by omega, fun _ _ => rfl, fun _ h => by omega⟩
    · refine ⟨Or.inr (Or.inr rfl), fun h => by omega, fun _ h => by omega, fun _ _ => rfl⟩

/-- Witness for C6: an attempted-not-completed cell classifies as -1 and a
completed cell as 1. -/
theorem C6_classify_total_witness :
    classifyCell exM6 exT6 "P" "covert_complete_mission_x" = -1 ∧
    classifyCell exM6 exT6c "P" "covert_complete_mission_x" = 1 :=
  ⟨(C6_classify_total exM6 exT6 "P" "covert_complete_mission_x").2.2.1
      (by decide) (by decide),
   (C6_classify_total exM6 exT6c "P" "covert_complete_mission_x").2.1 (by decide)⟩

/-! Section: C10: unresolved memberIds are dropped -/

lemma flatten_dropUnresolved (idn : String → Option String) (groups : List StatGroup) :
    flatten (dropUnresolved idn groups)
      = (flatten groups).filter (fun r => (idn r.memberId).isSome) := by
  induction groups with
  | nil => rfl
  | cons g gs ih =>
    simp only [flatten, dropUnresolved, List.map_cons, List.flatMap_cons,
      List.filter_append] at ih ⊢
    rw [List.filter_map]
    exact congrArg _ ih

lemma keptRecs_dropUnresolved (idn : String → Option String) (m : NameMap)
    (groups : List StatGroup) :
    keptRecs idn m (dropUnresolved idn groups) = keptRecs idn m groups := by
  unfold keptRecs resolveRecs
  rw [flatten_dropUnresolved, List.filter_map, List.filter_map, List.filter_filter]
  apply congrArg
  apply List.filter_congr
  intro r _
  simp [Function.comp]

/-- C10: stat records whose memberId is not in the member list are silently
dropped — removing them from the snapshot leaves the built table unchanged,
and every row label of the table comes from a record that did resolve. -/
theorem C10_unresolved_dropped (idn : String → Option String) (m : NameMap)
    (groups : List StatGroup) :
    buildPivot idn m (dropUnresolved idn groups) = buildPivot idn m groups ∧
    (∀ p, p ∈ (buildPivot idn m groups).rows →
      ∃ r ∈ keptRecs idn m groups, r.player = some p) := by
  constructor
  · unfold buildPivot
    rw [keptRecs_dropUnresolved]
  · intro p hp
    exact (mem_pivotRows_iff idn m groups p).mp hp

/-- Witness for C10: the row `A` of the example snapshot comes from a
resolved record. -/
theorem C10_unresolved_dropped_witness :
    ∃ r ∈ keptRecs (idToName exSnapAB.member) exMapPts exSnapAB.currentStat,
      r.player = some "A" :=
  (C10_unresolved_dropped (idToName exSnapAB.member) exMapPts exSnapAB.currentStat).2
    "A" (by decide)

/-! Section: C1: zero-fill invariant -/

/-- C1 counterexample: in the spec's own example snapshot, member B has no
stat records and is absent from the table's row index entirely (rather than
present with zero cells), while A's two `pts` records do sum to 15. -/
theorem C1_counterexample :
    ¬("B" ∈ (buildPivot (idToName exSnapAB.member) exMapPts exSnapAB.currentStat).rows) ∧
    "B" ∈ exSnapAB.member.map Member.playerName ∧
    (buildPivot (idToName exSnapAB.member) exMapPts exSnapAB.currentStat).cell
      "A" "Total Territory Points" = 15 := by
  refine ⟨by decide, by decide, by decide⟩

/-- C1 (amended): every (player, stat) cell of the built table is a defined
integer, equal to 0 when no raw record matches, and the row index consists
exactly of the players with at least one resolved record — a member with no
records is absent from the table, not a zero row. -/
theorem C1_zero_fill (idn : String → Option String) (m : NameMap)
    (groups : List StatGroup) (p s : String) :
    ((∀ r ∈ keptRecs idn m groups, ¬(r.player = some p ∧ r.statName = s)) →
      (buildPivot idn m groups).cell p s = 0) ∧
    (p ∈ (buildPivot idn m groups).rows ↔
      ∃ r ∈ keptRecs idn m groups, r.player = some p) := by
  constructor
  · intro h
    exact pivotCell_eq_zero _ p s h
  · exact mem_pivotRows_iff idn m groups p

/-- Witness for C1: player A is a row of the example table and its cell for
an unrecorded stat is 0. -/
theorem C1_zero_fill_witness :
    (buildPivot (idToName exSnapAB.member) exMapPts exSnapAB.currentStat).cell
      "A" "Unrecorded Stat" = 0 ∧
    "A" ∈ (buildPivot (idToName exSnapAB.member) exMapPts exSnapAB.currentStat).rows :=
  ⟨(C1_zero_fill (idToName exSnapAB.member) exMapPts exSnapAB.currentStat
      "A" "Unrecorded Stat").1 (by decide),
   (C1_zero_fill (idToName exSnapAB.member) exMapPts exSnapAB.currentStat
      "A" "Unrecorded Stat").2.mpr ⟨⟨some "A", "Total Territory Points", 10⟩, by decide, rfl⟩⟩

/-! Section: C7: derived phase-range columns -/

lemma cell_addColumn_self (t : StatTable) (name : String) (f : String → Int) (p : String) :
    (addColumn t name f).cell p name = f p := by
  simp [addColumn]

lemma cell_addColumn_other (t : StatTable) (name : String) (f : String → Int)
    (p s : String) (h : s ≠ name) :
    (addColumn t name f).cell p s = t.cell p s := by
  simp [addColumn, h]

lemma contains_addColumn_self (t : StatTable) (name : String) (f : String → Int) :
    (addColumn t name f).cols.contains name = true := by
  simp only [addColumn]
  split
  · assumption
  · simp

lemma contains_addColumn_other (t : StatTable) (name : String) (f : String → Int)
    (c : String) (h : c ≠ name) :
    (addColumn t name f).cols.contains c = t.cols.contains c := by
  simp only [addColumn]
  split
  · rfl
  · simp [h]

lemma sumPresent_addColumn (t : StatTable) (name : String) (f : String → Int)
    (names : List String) (p : String) (h : ¬ name ∈ names) :
    sumPresent (addColumn t name f) names p = sumPresent t names p := by
  unfold sumPresent
  induction names with
  | nil => rfl
  | cons c cs ih =>
    have hc : c ≠ name := fun hcn => h (hcn ▸ List.mem_cons_self c cs)
    have hcs : ¬ name ∈ cs := fun hm => h (List.mem_cons_of_mem c hm)
    rw [List.filter_cons, List.filter_cons, contains_addColumn_other t name f c hc]
    by_cases hmem : t.cols.contains c = true
    · simp only [hmem, if_true, List.map_cons, List.sum_cons,
        cell_addColumn_other t name f p c hc, ih hcs]
    · simp only [hmem, if_false, Bool.false_eq_true, ih hcs]

/-- C7: after `augment`, both derived phase-range columns exist; each equals,
for every player, the sum of exactly those phase source columns present in
the input table, and is 0 when none of them are present. -/
theorem C7_derived_sums (t : StatTable) (p : String) :
    ((augment t).cols.contains "Total Attempts P3-P6" = true ∧
     (augment t).cols.contains "Total Completed Waves P3-P6" = true) ∧
    ((augment t).cell p "Total Attempts P3-P6"
      = ((attempt_names.filter (fun c => t.cols.contains c)).map (t.cell p)).sum ∧
     (augment t).cell p "Total Completed Waves P3-P6"
      = ((wave_names.filter (fun c => t.cols.contains c)).map (t.cell p)).sum) ∧
    ((attempt_names.filter (fun c => t.cols.contains c) = [] →
      (augment t).cell p "Total Attempts P3-P6" = 0) ∧
     (wave_names.filter (fun c => t.cols.contains c) = [] →
      (augment t).cell p "Total Completed Waves P3-P6" = 0)) := by
  have hne : "Total Attempts P3-P6" ≠ "Total Completed Waves P3-P6" := by decide
  have hnw : ¬ "Total Attempts P3-P6" ∈ wave_names := by decide
  have hatt : (augment t).cell p "Total Attempts P3-P6"
      = ((attempt_names.filter (fun c => t.cols.contains c)).map (t.cell p)).sum := by
    unfold augment
    rw [cell_addColumn_other _ _ _ _ _ hne, cell_addColumn_self]
    rfl
  have hwav : (augment t).cell p "Total Completed Waves P3-P6"
      = ((wave_names.filter (fun c => t.cols.contains c)).map (t.cell p)).sum := by
    unfold augment
    rw [cell_addColumn_self, sumPresent_addColumn _ _ _ _ _ hnw]
    rfl
  refine ⟨⟨?_, ?_⟩, ⟨hatt, hwav⟩, ⟨?_, ?_⟩⟩
  · unfold augment
    rw [contains_addColumn_other _ _ _ _ hne]
    exact contains_addColumn_self _ _ _
  · unfold augment
    exact contains_addColumn_self _ _ _
  · intro h
    rw [hatt, h]
    rfl
  · intro h
    rw [hwav, h]
    rfl

/-- Witness for C7: with only `Mission Attempt Round 3` present the attempts
column sums it, and with no source columns present both derived columns
are 0. -/
theorem C7_derived_sums_witness :
    (augment exT7).cell "P" "Total Attempts P3-P6" = 4 ∧
    (augment exT7e).cell "P" "Total Attempts P3-P6" = 0 ∧
    (augment exT7e).cell "P" "Total Completed Waves P3-P6" = 0 := by
  refine ⟨?_, (C7_derived_sums exT7e "P").2.2.1 (by decide),
    (C7_derived_sums exT7e "P").2.2.2 (by decide)⟩
  rw [(C7_derived_sums exT7 "P").2.1.1]
  decide

/-! Section: C3: Guild Average -/

lemma gaValue_spec (t : StatTable) (mt : String) :
    (t.cols.contains mt = false → gaValue t mt = some 0) ∧
    (t.rows ≠ [] → t.cols.contains mt = true →
      gaValue t mt
        = some ((t.rows.map (fun p => ((t.cell p mt : Int) : ℚ))).sum
            / (t.rows.length : ℚ))) ∧
    (t.rows = [] → t.cols.contains mt = true → gaValue t mt = none) := by
  refine ⟨fun h => by simp only [gaValue]; rw [h]; simp, fun h1 h2 => ?_, fun h1 h2 => ?_⟩
  · unfold gaValue meanCol
    rw [h2]
    cases hrows : t.rows with
    | nil => exact absurd hrows h1
    | cons a l => simp [hrows]
  · unfold gaValue meanCol
    rw [h2, h1]
    simp

lemma rows_pipelineTable (idn : String → Option String) (m : NameMap)
    (groups : List StatGroup) :
    (pipelineTable idn m groups).rows = (buildPivot idn m groups).rows := rfl

/-- C3 counterexample: a snapshot whose only stat record has an unresolvable
memberId yields a table with no player rows but with the derived column
`Total Attempts P3-P6` present; the Guild Average of that column is NaN
(`none`), not 0 — refuting the claim's "equals 0 when there are no player
rows". -/
theorem C3_counterexample :
    gaValue (pipelineTable (idToName exSnapGhost.member) [] exSnapGhost.currentStat)
      "Total Attempts P3-P6" = none ∧
    (pipelineTable (idToName exSnapGhost.member) [] exSnapGhost.currentStat).rows = [] ∧
    (pipelineTable (idToName exSnapGhost.member) []
      exSnapGhost.currentStat).cols.contains "Total Attempts P3-P6" = true ∧
    flatten exSnapGhost.currentStat ≠ [] := by
  refine ⟨by decide, by decide, by decide, by decide⟩

/-- C3 (amended): the Guild Average of metric `mt` equals the arithmetic mean
of that column over the real player rows of the pipeline table when at least
one player row exists; it equals 0 when the column is absent; but when the
column is present and there are no player rows it is NaN (`none`), not 0. -/
theorem C3_guild_average (idn : String → Option String) (m : NameMap)
    (groups : List StatGroup) (mt : String) :
    ((pipelineTable idn m groups).cols.contains mt = false →
      gaValue (pipelineTable idn m groups) mt = some 0) ∧
    ((pipelineTable idn m groups).rows ≠ [] →
      (pipelineTable idn m groups).cols.contains mt = true →
      gaValue (pipelineTable idn m groups) mt
        = some (((pipelineTable idn m groups).rows.map
              (fun p => (((pipelineTable idn m groups).cell p mt : Int) : ℚ))).sum
            / ((pipelineTable idn m groups).rows.length : ℚ))) ∧
    (∀ p, p ∈ (pipelineTable idn m groups).rows ↔
      ∃ r ∈ keptRecs idn m groups, r.player = some p) ∧
    ((pipelineTable idn m groups).rows = [] →
      (pipelineTable idn m groups).cols.contains mt = true →
      gaValue (pipelineTable idn m groups) mt = none) := by
  refine ⟨(gaValue_spec _ mt).1, (gaValue_spec _ mt).2.1, ?_, (gaValue_spec _ mt).2.2⟩
  intro p
  rw [rows_pipelineTable]
  exact mem_pivotRows_iff idn m groups p

/-- Witness for C3: two players scoring 10 and 5 average to 15/2. -/
theorem C3_guild_average_witness :
    gaValue (pipelineTable (idToName exSnapMean.member) [] exSnapMean.currentStat) "m"
      = some ((15 : ℚ) / 2) := by
  rw [(C3_guild_average (idToName exSnapMean.member) [] exSnapMean.currentStat "m").2.1
    (by decide) (by decide)]
  have h1 : (pipelineTable (idToName exSnapMean.member) [] exSnapMean.currentStat).rows
      = ["A", "B"] := by decide
  have h2 : (pipelineTable (idToName exSnapMean.member) [] exSnapMean.currentStat).cell
      "A" "m" = 10 := by decide
  have h3 : (pipelineTable (idToName exSnapMean.member) [] exSnapMean.currentStat).cell
      "B" "m" = 5 := by decide
  rw [h1]
  simp only [List.map_cons, List.map_nil, h2, h3, List.sum_cons, List.sum_nil,
    List.length_cons, List.length_nil]
  norm_num

/-! Section: C2: history totality -/

lemma length_flatMap_const {α β : Type} (l : List α) (g : α → List β) (k : Nat)
    (h : ∀ a, (g a).length = k) : (l.flatMap g).length = l.length * k := by
  induction l with
  | nil => simp
  | cons a as ih =>
    simp only [List.flatMap_cons, List.length_append, h, ih, List.length_cons]
    ring

lemma length_snapshotRecords (idn : String → Option String) (m : NameMap) (d : Date)
    (run : Snapshot) (players metrics : List String)
    (h : flatten run.currentStat ≠ []) :
    (snapshotRecords idn m d run players metrics).length
      = players.length * metrics.length := by
  unfold snapshotRecords
  cases hf : flatten run.currentStat with
  | nil => exact absurd hf h
  | cons a l =>
    exact length_flatMap_const _ _ metrics.length (fun pl => by simp)

lemma length_zipped_records (idn : String → Option String) (m : NameMap)
    (dates : List Date) (jsons : List Snapshot) (players metrics : List String)
    (hlen : dates.length = jsons.length)
    (hne : ∀ s ∈ jsons, flatten s.currentStat ≠ []) :
    (((dates.zip jsons).map
        (fun dr => snapshotRecords idn m dr.1 dr.2 players metrics)).flatten).length
      = dates.length * (players.length * metrics.length) := by
  induction dates generalizing jsons with
  | nil => simp
  | cons d ds ih =>
    cases jsons with
    | nil => exact absurd hlen (by simp)
    | cons s ss =>
      have hs : flatten s.currentStat ≠ [] := hne s (List.mem_cons_self s ss)
      have hss : ∀ x ∈ ss, flatten x.currentStat ≠ [] :=
        fun x hx => hne x (List.mem_cons_of_mem s hx)
      simp only [List.zip_cons_cons, List.map_cons, List.flatten_cons,
        List.length_append, List.length_cons]
      rw [length_snapshotRecords idn m d s players metrics hs,
        ih ss (by simpa using hlen) hss]
      ring

lemma playerValue_isSome (t : StatTable) (pl mt : String) :
    ∃ q : ℚ, playerValue t pl mt = some q := by
  unfold playerValue
  split
  · exact ⟨_, rfl⟩
  · exact ⟨0, rfl⟩

lemma histValue_of_ne_ga (t : StatTable) (pl mt : String) (h : pl ≠ "Guild Average") :
    histValue t pl mt = playerValue t pl mt := by
  simp [histValue, h]

lemma mem_snapshotRecords (idn : String → Option String) (m : NameMap) (d : Date)
    (run : Snapshot) (players metrics : List String) (rec : HistRec)
    (hm : rec ∈ snapshotRecords idn m d run players metrics) :
    ∃ pl mt, pl ∈ players ∧ mt ∈ metrics ∧
      rec = ⟨d, pl, mt, histValue (pipelineTable idn m run.currentStat) pl mt⟩ := by
  unfold snapshotRecords at hm
  cases hf : flatten run.currentStat with
  | nil =>
    rw [hf] at hm
    exact absurd hm (by simp)
  | cons a l =>
    rw [hf] at hm
    simp only [List.mem_flatMap, List.mem_map] at hm
    obtain ⟨pl, hpl, mt, hmt, hrec⟩ := hm
    exact ⟨pl, mt, hpl, hmt, hrec.symm⟩

/-- C2 counterexample: one snapshot whose `currentStat` is empty is skipped
by `if df_run.empty: continue`, so one requested player and one metric yield
0 records, not N×P×M = 1. -/
theorem C2_counterexample :
    (historyRecords [] [exD1] [exSnapEmpty] ["A"] ["m"]).length = 0 ∧
    [exD1].length * ["A"].length * ["m"].length = 1 := by
  constructor
  · rw [historyRecords, List.length_mergeSort]
    decide
  · decide

/-- C2 (amended): when every snapshot's flattened stat list is non-empty the
history projection emits exactly N×P×M records; a snapshot whose flattened
stat list is empty is skipped entirely and contributes no records.  Every
emitted record for a real (non-"Guild Average") player carries a defined
numeric value, and a (player, metric) combination absent from a snapshot's
table yields the value 0, never an omitted record. -/
theorem C2_history_totality (m : NameMap) (dates : List Date) (jsons : List Snapshot)
    (players metrics : List String)
    (hlen : dates.length = jsons.length)
    (hne : ∀ s ∈ jsons, flatten s.currentStat ≠ []) :
    (historyRecords m dates jsons players metrics).length
      = dates.length * players.length * metrics.length ∧
    (∀ rec ∈ historyRecords m dates jsons players metrics,
      rec.player ≠ "Guild Average" → ∃ q : ℚ, rec.value = some q) ∧
    (∀ (t : StatTable) (pl mt : String), pl ≠ "Guild Average" →
      ¬(pl ∈ t.rows ∧ mt ∈ t.cols) → histValue t pl mt = some 0) := by
  refine ⟨?_, ?_, ?_⟩
  · rw [historyRecords, List.length_mergeSort, historyRecordsRaw,
      length_zipped_records _ m dates jsons players metrics hlen hne, Nat.mul_assoc]
  · intro rec hrec hga
    rw [historyRecords] at hrec
    have hraw := List.mem_mergeSort.mp hrec
    rw [historyRecordsRaw] at hraw
    simp only [List.mem_flatten, List.mem_map] at hraw
    obtain ⟨l, ⟨dr, _, hl⟩, hrl⟩ := hraw
    obtain ⟨pl, mt, _, _, hrec_eq⟩ :=
      mem_snapshotRecords (idToName ((jsons.getLast?.getD ⟨[], []⟩).member)) m
        dr.1 dr.2 players metrics rec (hl ▸ hrl)
    have hpl : rec.player = pl := by rw [hrec_eq]
    have hval : rec.value = histValue
        (pipelineTable (idToName ((jsons.getLast?.getD ⟨[], []⟩).member)) m
          dr.2.currentStat) pl mt := by
      rw [hrec_eq]
    rw [hval, histValue_of_ne_ga _ _ _ (hpl ▸ hga)]
    exact playerValue_isSome _ pl mt
  · intro t pl mt hga habs
    rw [histValue_of_ne_ga t pl mt hga]
    unfold playerValue
    rw [if_neg]
    intro hc
    simp only [Bool.and_eq_true, List.contains_iff_exists_mem_beq] at hc
    obtain ⟨⟨a, ha, hba⟩, ⟨b, hb, hbb⟩⟩ := hc
    exact habs ⟨(eq_of_beq hba) ▸ ha, (eq_of_beq hbb) ▸ hb⟩

/-- Witness for C2: one non-empty snapshot, one player, one metric give
exactly one record. -/
theorem C2_history_totality_witness :
    (historyRecords [] [exD1] [exSnap1] ["Old"] ["m"]).length = 1 :=
  (C2_history_totality [] [exD1] [exSnap1] ["Old"] ["m"] rfl (by decide)).1

/-! Section: C4: member-list resolution in the history loop -/

lemma zipped_member_irrel (idn : String → Option String) (m : NameMap)
    (dates : List Date) (jsons : List Snapshot) (mem : List Member)
    (players metrics : List String) :
    ((dates.zip (jsons.map fun s => (⟨mem, s.currentStat⟩ : Snapshot))).map
        (fun dr => snapshotRecords idn m dr.1 dr.2 players metrics)).flatten
      = ((dates.zip jsons).map
        (fun dr => snapshotRecords idn m dr.1 dr.2 players metrics)).flatten := by
  induction dates generalizing jsons with
  | nil => rfl
  | cons d ds ih =>
    cases jsons with
    | nil => rfl
    | cons s ss =>
      simp only [List.map_cons, List.zip_cons_cons, List.flatten_cons, ih ss]
      rfl

/-- C4 counterexample: member id `x` is named `Old` in the first snapshot and
`New` in the latest one.  The first snapshot's own member list resolves `x`
to `Old`, whose table cell for `m` is 10; yet the history series credits
snapshot 1's score to `New` (value 10) and gives `Old` the zero-fill value 0
— the record was resolved via the latest snapshot's member list, not the
snapshot's own. -/
theorem C4_counterexample :
    historyRecords [] [exD1, exD2] [exSnap1, exSnap2] ["Old", "New"] ["m"]
      = [⟨exD1, "Old", "m", some 0⟩, ⟨exD1, "New", "m", some 10⟩,
         ⟨exD2, "Old", "m", some 0⟩, ⟨exD2, "New", "m", some 7⟩] ∧
    idToName exSnap1.member "x" = some "Old" ∧
    (buildPivot (idToName exSnap1.member) [] exSnap1.currentStat).cell "Old" "m" = 10 := by
  refine ⟨?_, by decide, by decide⟩
  rw [historyRecords, List.mergeSort_of_sorted (by decide)]
  decide

/-- C4 (amended): the history loop resolves every snapshot's stat records via
the member list of the latest snapshot: replacing every snapshot's member
list by the latest one's leaves the history output unchanged, so no
snapshot's own member list (other than the latest's) influences the result. -/
theorem C4_uses_latest_member_list (m : NameMap) (dates : List Date)
    (jsons : List Snapshot) (players metrics : List String) :
    historyRecords m dates
      (jsons.map fun s => ⟨(jsons.getLast?.getD ⟨[], []⟩).member, s.currentStat⟩)
      players metrics
      = historyRecords m dates jsons players metrics := by
  unfold historyRecords
  congr 1
  unfold historyRecordsRaw
  have hmem : (((jsons.map fun s =>
        (⟨(jsons.getLast?.getD ⟨[], []⟩).member, s.currentStat⟩ : Snapshot)).getLast?).getD
          ⟨[], []⟩).member
      = (jsons.getLast?.getD ⟨[], []⟩).member := by
    rw [List.getLast?_map]
    cases jsons.getLast? <;> rfl
  rw [hmem]
  exact zipped_member_irrel _ m dates jsons _ players metrics

/-! Section: C5: snapshot discovery -/

lemma filterValid_eq_filter (files : List String)
    (h : ∀ f ∈ files, extract_date f ≠ .parseError) :
    filterValid files = .ok (files.filter isOkFile) := by
  induction files with
  | nil => rfl
  | cons f rest ih =>
    have hf := h f (List.mem_cons_self f rest)
    have hrest : ∀ x ∈ rest, extract_date x ≠ .parseError :=
      fun x hx => h x (List.mem_cons_of_mem f hx)
    unfold filterValid
    cases he : extract_date f with
    | parseError => exact absurd he hf
    | noMatch =>
      rw [ih hrest]
      simp [List.filter_cons, isOkFile, he]
    | ok d =>
      rw [ih hrest]
      simp [List.filter_cons, isOkFile, he, Except.map]

lemma exists_ok_of_isOkFile {f : String} (hm : isOkFile f = true) :
    ∃ d, extract_date f = .ok d := by
  unfold isOkFile at hm
  cases he : extract_date f with
  | noMatch => rw [he] at hm; exact absurd hm (by simp)
  | parseError => rw [he] at hm; exact absurd hm (by simp)
  | ok d => exact ⟨d, rfl⟩

lemma okDate_of_extract {f : String} {d : Date} (he : extract_date f = .ok d) :
    okDate f = some d ∧ dateKeyOf f = dateKey d := by
  unfold okDate dateKeyOf
  rw [he]
  exact ⟨rfl, rfl⟩

/-- C5 counterexample: the filename `tb_data_320113.json` matches the naming
pattern but encodes the impossible date 32-01-13, so `strptime` raises and
`load_all_json` fails with an error instead of silently excluding the file. -/
theorem C5_counterexample :
    extract_date "data/tb_data_320113.json" = .parseError ∧
    load_all_json ["data/tb_data_320113.json"] = .error () :=
  ⟨rfl, rfl⟩

/-- C5 (amended): files whose names do not match the `tb_data_DDMMYY` pattern
are silently excluded and the remaining snapshots are returned sorted
ascending by the date in the filename; but a file whose name matches the
pattern while encoding an impossible day/month raises an error instead of
being excluded, so the whole result is only defined when no such file is
present. -/
theorem C5_snapshot_discovery (files : List String)
    (h : ∀ f ∈ files, extract_date f ≠ .parseError) :
    ∃ l, load_all_json files = .ok l ∧
      l.Pairwise (fun a b => dateKey a ≤ dateKey b) ∧
      (∀ d, d ∈ l ↔ ∃ f ∈ files, extract_date f = .ok d) := by
  refine ⟨((files.filter isOkFile).mergeSort
      (fun a b => decide (dateKeyOf a ≤ dateKeyOf b))).filterMap okDate, ?_, ?_, ?_⟩
  · unfold load_all_json
    rw [filterValid_eq_filter files h]
    rfl
  · have hsorted := @List.sorted_mergeSort String
      (fun a b => decide (dateKeyOf a ≤ dateKeyOf b))
      (fun a b c hab hbc => by
        simp only [decide_eq_true_eq] at *
        exact Nat.le_trans hab hbc)
      (fun a b => by
        simp only [Bool.or_eq_true, decide_eq_true_eq]
        exact Nat.le_total _ _)
      (files.filter isOkFile)
    refine hsorted.filterMap okDate ?_
    intro a a' hle b hb b' hb'
    have ha : okDate a = some b := hb
    have ha' : okDate a' = some b' := hb'
    have hka : dateKeyOf a = dateKey b := by
      unfold okDate at ha
      unfold dateKeyOf
      cases hea : extract_date a <;> rw [hea] at ha <;> simp_all
    have hka' : dateKeyOf a' = dateKey b' := by
      unfold okDate at ha'
      unfold dateKeyOf
      cases hea : extract_date a' <;> rw [hea] at ha' <;> simp_all
    have := of_decide_eq_true hle
    rw [hka, hka'] at this
    exact this
  · intro d
    constructor
    · intro hd
      obtain ⟨f, hf, hof⟩ := List.mem_filterMap.mp hd
      have hfv : f ∈ files.filter isOkFile := List.mem_mergeSort.mp hf
      have hffiles : f ∈ files := (List.mem_filter.mp hfv).1
      obtain ⟨d', he⟩ := exists_ok_of_isOkFile (List.mem_filter.mp hfv).2
      have : okDate f = some d' := (okDate_of_extract he).1
      rw [this] at hof
      cases hof
      exact ⟨f, hffiles, he⟩
    · intro ⟨f, hffiles, he⟩
      refine List.mem_filterMap.mpr ⟨f, ?_, (okDate_of_extract he).1⟩
      refine List.mem_mergeSort.mpr (List.mem_filter.mpr ⟨hffiles, ?_⟩)
      unfold isOkFile
      rw [he]

/-- Witness for C5: two valid snapshot names out of order plus a
non-matching file yield the two dates, ascending, with the junk file
excluded. -/
theorem C5_snapshot_discovery_witness :
    ∃ l, load_all_json
        ["data/tb_data_020125.json", "data/tb_data_010124.json", "data/junk.txt"]
      = .ok l ∧
      l.Pairwise (fun a b => dateKey a ≤ dateKey b) ∧
      (∀ d, d ∈ l ↔ ∃ f ∈ ["data/tb_data_020125.json", "data/tb_data_010124.json",
        "data/junk.txt"], extract_date f = .ok d) :=
  C5_snapshot_discovery _ (by decide)

end SWGOH
